import Mathlib

/-!
Shallow embedding of `psa-kb-switcher` (src/main.rs), a single-file X11
keyboard-layout tray indicator, together with theorems settling the
specification claims about it.

Modelling conventions:
* Rust strings are Lean `String`s; the per-character ASCII case maps of
  `str::to_lowercase` / `str::to_uppercase` are modelled with `Char.toLower` /
  `Char.toUpper` mapped over the character list (the layout names this program
  handles are ASCII X11 atom names).
* X11 atoms, window ids and selection owners are `Nat` (`x11rb::NONE = 0`).
* The connection is abstracted at the protocol boundary: each helper takes the
  replies it would receive from the server as arguments (the spec excludes the
  connection primitive as an external collaborator).
* Pixel byte values are `Nat`; the floating-point glyph rasterisation inside
  `render_text_icon` is abstracted as the list of in-bounds-checked pixel
  writes it performs (claims only concern buffer shape, never coverage values).
-/

/-- Rust `haystack.starts_with(needle)` on character lists. -/
def charsStartWith : List Char → List Char → Bool
  | _, [] => true
  | [], _ :: _ => false
  | h :: t, n :: m => h == n && charsStartWith t m

/-- Rust `str::contains(needle)`: `needle` occurs as a contiguous substring. -/
def containsSub : List Char → List Char → Bool
  | [], needle => needle.isEmpty
  | c :: t, needle => charsStartWith (c :: t) needle || containsSub t needle

/-- Rust `name.to_lowercase()` (ASCII range, see module conventions). -/
def rustLower (name : String) : List Char :=
  name.data.map Char.toLower

/-- `shorten_name` from src/main.rs: keyword rules on the lower-cased name,
then the first two characters of the original name upper-cased. -/
def shorten_name (name : String) : String :=
  let lower := rustLower name
  if containsSub lower "ru".data || containsSub lower "russian".data then "RU"
  else if containsSub lower "us".data || containsSub lower "english".data then "EN"
  else if containsSub lower "ua".data then "UA"
  else String.mk ((name.data.take 2).map Char.toUpper)

/-- The atom-collection loop of `get_layout_names`: append the string form of
each atom, stopping at the first zero atom.  `atomName` stands for the
`get_atom_name` round-trip to the server. -/
def collectNames (atomName : Nat → String) : List Nat → List String
  | [] => []
  | a :: t => if a == 0 then [] else atomName a :: collectNames atomName t

/-- `get_layout_names` from src/main.rs. `groups` is the
`names.value_list.groups` reply field (`Option<Vec<Atom>>`). -/
def get_layout_names (atomName : Nat → String) (groups : Option (List Nat)) :
    List String :=
  let res := match groups with
    | some gs => collectNames atomName gs
    | none => []
  if res.isEmpty then ["US"] else res

/-- `ICON_SIZE` constant from src/main.rs. -/
def ICON_SIZE : Nat := 24

/-- One RGBA pixel of the `RgbaImage` produced by `render_text_icon`. -/
structure Rgba where
  r : Nat
  g : Nat
  b : Nat
  a : Nat
deriving DecidableEq, Repr

/-- One pixel write performed by the glyph-rasterisation closure inside
`render_text_icon`: coordinates `px`, `py` and the blended colour channels
(the `blend` results for the coverage value; alpha is written as 255 by the
code).  The floating-point coverage computation itself is abstracted: a run of
the renderer is characterised by the list of writes it issues. -/
structure PixelWrite where
  px : Nat
  py : Nat
  r : Nat
  g : Nat
  b : Nat
deriving DecidableEq, Repr

/-- `render_text_icon` from src/main.rs: start from an `ICON_SIZE × ICON_SIZE`
image filled with the background colour `(35,35,35,255)`, then apply each
glyph pixel write in order; a write lands at row-major index
`py * ICON_SIZE + px` and only if `px < ICON_SIZE && py < ICON_SIZE`
(the bounds check in the drawing closure); alpha is always 255. -/
def render_text_icon (writes : List PixelWrite) : List Rgba :=
  writes.foldl
    (fun img w =>
      if w.px < ICON_SIZE && w.py < ICON_SIZE then
        img.set (w.py * ICON_SIZE + w.px) ⟨w.r, w.g, w.b, 255⟩
      else img)
    (List.replicate (ICON_SIZE * ICON_SIZE) ⟨35, 35, 35, 255⟩)

/-- `render_icon_bgra` from src/main.rs: for each pixel `[r,g,b,a]` push
`b`, `g`, `r`, `0`, in image order. -/
def render_icon_bgra : List Rgba → List Nat
  | [] => []
  | p :: t => p.b :: p.g :: p.r :: 0 :: render_icon_bgra t

/-- The full per-name rendering pipeline of the cache-population loop in
`main`: `render_icon_bgra(&render_text_icon(&shorten_name(name), &font))`,
with the font-and-text-dependent glyph writes supplied by `glyphWrites`. -/
def renderPipeline (glyphWrites : String → List PixelWrite) (short : String) :
    List Nat :=
  render_icon_bgra (render_text_icon (glyphWrites short))

/-- `HashMap::insert` on an association list: replace the value under an
existing key, otherwise append the binding. -/
def mapInsert : List (String × List Nat) → String → List Nat →
    List (String × List Nat)
  | [], k, v => [(k, v)]
  | (k0, v0) :: t, k, v =>
    if k0 == k then (k, v) :: t else (k0, v0) :: mapInsert t k v

/-- `HashMap::get` on an association list. -/
def mapLookup : List (String × List Nat) → String → Option (List Nat)
  | [], _ => none
  | (k0, v0) :: t, k => if k0 == k then some v0 else mapLookup t k

/-- The `icon_cache` population loop of `main`: for each layout name insert
the rendered icon for its shortened form, keyed by the full name. -/
def build_icon_cache (render : String → List Nat) (layout_names : List String) :
    List (String × List Nat) :=
  layout_names.foldl
    (fun cache name => mapInsert cache name (render (shorten_name name))) []

/-- The events the main loop dispatches on: `XkbStateNotify` carrying the new
group (a `u8` in the code, here a `Nat`), `Expose` carrying its `count`
field, and the catch-all `_ => {}` arm. -/
inductive XEvent where
  | xkbStateNotify (group : Nat) : XEvent
  | expose (count : Nat) : XEvent
  | other : XEvent
deriving DecidableEq, Repr

/-- The guarded draw of the main loop:
`if let Some(name) = layout_names.get(g) { if let Some(pixels) =
icon_cache.get(name) { draw_icon(..., pixels) } }` — returns the list of
buffers passed to `draw_icon` (empty or a singleton). -/
def guardedDraw (layout_names : List String) (cache : List (String × List Nat))
    (g : Nat) : List (List Nat) :=
  match layout_names.get? g with
  | some name =>
    match mapLookup cache name with
    | some pixels => [pixels]
    | none => []
  | none => []

/-- One iteration of the main event loop (src/main.rs lines 114-139) as a
function from the current group and the event to the new group and the list
of `draw_icon` invocations it performs. -/
def step (layout_names : List String) (cache : List (String × List Nat))
    (g : Nat) : XEvent → Nat × List (List Nat)
  | XEvent.xkbStateNotify new_group =>
    if new_group ≠ g then (new_group, guardedDraw layout_names cache new_group)
    else (g, [])
  | XEvent.expose count =>
    if count = 0 then (g, guardedDraw layout_names cache g) else (g, [])
  | XEvent.other => (g, [])

/-- Run the main loop over a finite queue of events, collecting every
`draw_icon` invocation in order. -/
def run_events (layout_names : List String) (cache : List (String × List Nat))
    (g : Nat) : List XEvent → Nat × List (List Nat)
  | [] => (g, [])
  | e :: t =>
    let r := step layout_names cache g e
    let r2 := run_events layout_names cache r.1 t
    (r2.1, r.2 ++ r2.2)

/-- The four server-side requests `draw_icon` issues after `generate_id`. -/
inductive XOp where
  | createGC
  | putImage
  | freeGC
  | flush
deriving DecidableEq, Repr

/-- Which of `draw_icon`'s requests the connection accepts; a `false` field
makes the corresponding call return `Err`, which `?` propagates. -/
structure DrawConn where
  create_gc_ok : Bool
  put_image_ok : Bool
  free_gc_ok : Bool
  flush_ok : Bool
deriving DecidableEq, Repr

/-- `draw_icon` from src/main.rs: `create_gc`, `put_image`, `free_gc`,
`flush`, each followed by `?`.  Returns the trace of requests issued (a
failing request was still issued) and the overall result. -/
def draw_icon (c : DrawConn) : List XOp × Except String Unit :=
  if !c.create_gc_ok then ([XOp.createGC], Except.error "create_gc failed")
  else if !c.put_image_ok then
    ([XOp.createGC, XOp.putImage], Except.error "put_image failed")
  else if !c.free_gc_ok then
    ([XOp.createGC, XOp.putImage, XOp.freeGC], Except.error "free_gc failed")
  else if !c.flush_ok then
    ([XOp.createGC, XOp.putImage, XOp.freeGC, XOp.flush],
      Except.error "flush failed")
  else
    ([XOp.createGC, XOp.putImage, XOp.freeGC, XOp.flush], Except.ok ())

/-- `dock_window_to_tray` from src/main.rs, abstracted at the protocol
boundary: `owner` is the `get_selection_owner` reply for the tray selection
atom (`x11rb::NONE = 0`).  With no owner it returns the
"No system tray detected" error; otherwise it sends the docking client
message and succeeds. -/
def dock_window_to_tray (owner : Nat) : Except String Unit :=
  if owner = 0 then Except.error "No system tray detected" else Except.ok ()

/-- `max_retries` from `main`. -/
def max_retries : Nat := 10

/-- The docking retry loop of `main`, unrolled as a recursion over the
remaining attempts; `i` is the 1-based attempt counter of `for i in 1..=10`
and `owner_at i` the selection owner the server would report on attempt `i`.
Returns `(docked, attempts made, 500ms sleeps performed)`: the loop breaks on
the first `Ok`, and sleeps only when a failed attempt has `i < max_retries`. -/
def dock_attempts (owner_at : Nat → Nat) : Nat → Nat → Bool × Nat × Nat
  | _, 0 => (false, 0, 0)
  | i, rem + 1 =>
    match dock_window_to_tray (owner_at i) with
    | Except.ok _ => (true, 1, 0)
    | Except.error _ =>
      if rem = 0 then (false, 1, 0)
      else
        let r := dock_attempts owner_at (i + 1) rem
        (r.1, r.2.1 + 1, r.2.2 + 1)

/-- The docking section of `main`: run the retry loop from attempt 1; if it
never docked, return the fatal error from line 93. -/
def run_docking (owner_at : Nat → Nat) : Except String (Nat × Nat) :=
  let r := dock_attempts owner_at 1 max_retries
  if r.1 then Except.ok (r.2.1, r.2.2)
  else Except.error "Could not find System Tray after waiting. Is tint2/panel running?"

/-- An ASCII lower-case letter, the case `str::to_uppercase` maps away. -/
def isAsciiLower (c : Char) : Bool := decide (97 ≤ c.toNat ∧ c.toNat ≤ 122)

/-- A string is fully upper-cased: no character is an ASCII lower-case
letter. -/
def noLowercase (s : String) : Bool := s.data.all fun c => !(isAsciiLower c)

theorem toNat_ofNat_valid (n : Nat) (h : Nat.isValidChar n) :
    (Char.ofNat n).toNat = n := by
  unfold Char.ofNat
  rw [dif_pos h]
  rfl

theorem toUpper_eq_ite (c : Char) :
    Char.toUpper c =
      if c.toNat ≥ 97 ∧ c.toNat ≤ 122 then Char.ofNat (c.toNat - 32) else c := rfl

theorem isAsciiLower_toUpper (c : Char) : isAsciiLower (Char.toUpper c) = false := by
  rw [toUpper_eq_ite]
  by_cases h : c.toNat ≥ 97 ∧ c.toNat ≤ 122
  · rw [if_pos h]
    have hv : Nat.isValidChar (c.toNat - 32) := Or.inl (by omega)
    unfold isAsciiLower
    rw [toNat_ofNat_valid _ hv]
    exact decide_eq_false (by omega)
  · rw [if_neg h]
    exact decide_eq_false h

theorem charsStartWith_length : ∀ hay needle : List Char,
    charsStartWith hay needle = true → needle.length ≤ hay.length
  | _, [], _ => Nat.zero_le _
  | [], _ :: _, h => by simp [charsStartWith] at h
  | c :: t, n :: m, h => by
    simp only [charsStartWith, Bool.and_eq_true] at h
    simpa using Nat.succ_le_succ (charsStartWith_length t m h.2)

theorem containsSub_length : ∀ hay needle : List Char,
    containsSub hay needle = true → needle.length ≤ hay.length
  | [], needle, h => by
    simp only [containsSub, List.isEmpty_iff] at h
    simp [h]
  | _ :: t, needle, h => by
    simp only [containsSub, Bool.or_eq_true] at h
    cases h with
    | inl h => exact charsStartWith_length _ _ h
    | inr h => exact Nat.le_succ_of_le (containsSub_length t needle h)

theorem mapLookup_mapInsert_self : ∀ (m : List (String × List Nat)) (k : String)
    (v : List Nat), mapLookup (mapInsert m k v) k = some v
  | [], k, v => by simp [mapInsert, mapLookup]
  | (k0, v0) :: t, k, v => by
    by_cases h : k0 = k
    · subst h; simp [mapInsert, mapLookup]
    · simp [mapInsert, mapLookup, h, mapLookup_mapInsert_self t k v]

theorem mapLookup_mapInsert_ne : ∀ (m : List (String × List Nat)) (k : String)
    (v : List Nat) (k' : String), k' ≠ k →
    mapLookup (mapInsert m k v) k' = mapLookup m k'
  | [], k, v, k', h => by simp [mapInsert, mapLookup, Ne.symm h]
  | (k0, v0) :: t, k, v, k', h => by
    by_cases h0 : k0 = k
    · subst h0; simp [mapInsert, mapLookup, Ne.symm h]
    · by_cases h1 : k0 = k'
      · subst h1; simp [mapInsert, mapLookup, h0]
      · simp [mapInsert, mapLookup, h0, h1, mapLookup_mapInsert_ne t k v k' h]

theorem mapLookup_foldInsert (render : String → List Nat) :
    ∀ (names : List String) (acc : List (String × List Nat)) (k : String),
    mapLookup
      (names.foldl (fun cache name => mapInsert cache name (render (shorten_name name))) acc) k
      = if k ∈ names then some (render (shorten_name k)) else mapLookup acc k
  | [], acc, k => by simp
  | n :: t, acc, k => by
    rw [List.foldl_cons, mapLookup_foldInsert render t _ k]
    by_cases ht : k ∈ t
    · simp [ht, List.mem_cons]
    · by_cases hn : k = n
      · subst hn
        simp [ht, mapLookup_mapInsert_self]
      · simp [ht, hn, mapLookup_mapInsert_ne acc n _ k hn]

theorem lookup_build_icon_cache (render : String → List Nat)
    (layout_names : List String) (k : String) (h : k ∈ layout_names) :
    mapLookup (build_icon_cache render layout_names) k
      = some (render (shorten_name k)) := by
  unfold build_icon_cache
  rw [mapLookup_foldInsert render layout_names [] k, if_pos h]

theorem render_writes_length : ∀ (writes : List PixelWrite) (img : List Rgba),
    (writes.foldl
      (fun img w =>
        if w.px < ICON_SIZE && w.py < ICON_SIZE then
          img.set (w.py * ICON_SIZE + w.px) ⟨w.r, w.g, w.b, 255⟩
        else img) img).length = img.length
  | [], _ => rfl
  | w :: t, img => by
    rw [List.foldl_cons, render_writes_length t]
    split <;> simp

theorem render_text_icon_length (writes : List PixelWrite) :
    (render_text_icon writes).length = ICON_SIZE * ICON_SIZE := by
  unfold render_text_icon
  rw [render_writes_length]
  simp

theorem render_icon_bgra_length : ∀ img : List Rgba,
    (render_icon_bgra img).length = 4 * img.length
  | [] => rfl
  | p :: t => by
    simp only [render_icon_bgra, List.length_cons, render_icon_bgra_length t]
    ring

theorem get4_cons (a b c d : Nat) (l : List Nat) (n : Nat) :
    (a :: b :: c :: d :: l).get? (n + 4) = l.get? n := rfl

theorem render_icon_bgra_get : ∀ (img : List Rgba) (i : Nat) (p : Rgba),
    img.get? i = some p →
    (render_icon_bgra img).get? (4 * i) = some p.b ∧
    (render_icon_bgra img).get? (4 * i + 1) = some p.g ∧
    (render_icon_bgra img).get? (4 * i + 2) = some p.r ∧
    (render_icon_bgra img).get? (4 * i + 3) = some 0
  | [], i, p, h => by simp [List.get?] at h
  | q :: t, 0, p, h => by
    simp only [List.get?] at h
    cases h
    simp [render_icon_bgra, List.get?]
  | q :: t, i + 1, p, h => by
    have ih := render_icon_bgra_get t i p (by simpa [List.get?] using h)
    have e0 : 4 * (i + 1) = 4 * i + 4 := by ring
    have e1 : 4 * (i + 1) + 1 = (4 * i + 1) + 4 := by ring
    have e2 : 4 * (i + 1) + 2 = (4 * i + 2) + 4 := by ring
    have e3 : 4 * (i + 1) + 3 = (4 * i + 3) + 4 := by ring
    simp only [render_icon_bgra, e0, e1, e2, e3, get4_cons]
    exact ih

theorem collectNames_eq_takeWhile (atomName : Nat → String) : ∀ gs : List Nat,
    collectNames atomName gs = (gs.takeWhile (fun a => !(a == 0))).map atomName
  | [] => rfl
  | a :: t => by
    by_cases h : a = 0
    · subst h; simp [collectNames, List.takeWhile_cons]
    · simp [collectNames, List.takeWhile_cons, h, collectNames_eq_takeWhile atomName t]

theorem dock_attempts_le (owner_at : Nat → Nat) : ∀ (rem i : Nat),
    (dock_attempts owner_at i rem).2.1 ≤ rem
  | 0, _ => by simp [dock_attempts]
  | rem + 1, i => by
    unfold dock_attempts
    cases dock_window_to_tray (owner_at i) with
    | ok _ => simp
    | error e =>
      by_cases h : rem = 0
      · subst h; simp
      · have ih := dock_attempts_le owner_at rem (i + 1)
        simp only [h, if_false]
        omega

theorem dock_attempts_all_fail (owner_at : Nat → Nat) : ∀ (rem i : Nat),
    (∀ t, i ≤ t → t < i + rem → owner_at t = 0) →
    dock_attempts owner_at i rem = (false, rem, rem - 1)
  | 0, _, _ => rfl
  | rem + 1, i, h => by
    have h0 : owner_at i = 0 := h i (Nat.le_refl i) (by omega)
    unfold dock_attempts
    rw [show dock_window_to_tray (owner_at i)
        = Except.error "No system tray detected" by
      simp [dock_window_to_tray, h0]]
    by_cases hr : rem = 0
    · subst hr; simp
    · obtain ⟨s, rfl⟩ : ∃ s, rem = s + 1 := ⟨rem - 1, by omega⟩
      simp only [hr, if_false]
      rw [dock_attempts_all_fail owner_at (s + 1) (i + 1)
        (fun t h1 h2 => h t (by omega) (by omega))]
      rfl

theorem dock_attempts_first_success (owner_at : Nat → Nat) : ∀ (rem i j : Nat),
    i ≤ j → j < i + rem → (∀ t, i ≤ t → t < j → owner_at t = 0) →
    owner_at j ≠ 0 →
    dock_attempts owner_at i rem = (true, j - i + 1, j - i)
  | 0, _, _, h1, h2, _, _ => by omega
  | rem + 1, i, j, h1, h2, h3, h4 => by
    by_cases hij : j = i
    · subst hij
      unfold dock_attempts
      rw [show dock_window_to_tray (owner_at j) = Except.ok () by
        simp [dock_window_to_tray, h4]]
      simp
    · have h0 : owner_at i = 0 := h3 i (Nat.le_refl i) (by omega)
      unfold dock_attempts
      rw [show dock_window_to_tray (owner_at i)
          = Except.error "No system tray detected" by
        simp [dock_window_to_tray, h0]]
      have hrem : rem ≠ 0 := by omega
      rw [if_neg hrem]
      rw [dock_attempts_first_success owner_at rem (i + 1) j (by omega) (by omega)
        (fun t ht1 ht2 => h3 t (by omega) ht2) h4]
      have e : j - i = j - (i + 1) + 1 := by omega
      rw [e]

/-- Claim C1, counterexample: at the concrete connection where only the
put-image pixel transfer fails, `draw_icon` exits with that error having
issued `create_gc` and `put_image` but never `free_gc` — the graphics context
is NOT freed on this exit path, refuting the claim as stated. -/
theorem c1_counterexample :
    (draw_icon ⟨true, false, true, true⟩).2 = Except.error "put_image failed" ∧
    XOp.freeGC ∉ (draw_icon ⟨true, false, true, true⟩).1 :=
  ⟨rfl, by decide⟩

/-- Claim C1, amended: `draw_icon` frees the graphics context on every exit
path on which the put-image transfer succeeded; on the path where `put_image`
reports an error the `?` operator returns early and `free_gc` is never
issued, so the graphics context is only released when the transfer (and the
preceding `create_gc`) succeed. -/
theorem c1_amended (c : DrawConn) :
    (c.create_gc_ok = true → c.put_image_ok = true →
      XOp.freeGC ∈ (draw_icon c).1) ∧
    (c.put_image_ok = false → XOp.freeGC ∉ (draw_icon c).1) := by
  rcases c with ⟨cg, pi, fg, fl⟩
  cases cg <;> cases pi <;> cases fg <;> cases fl <;> decide

/-- Claim C1, witness for the amended theorem: on the all-successful
connection, `free_gc` is among the issued requests. -/
theorem c1_witness : XOp.freeGC ∈ (draw_icon ⟨true, true, true, true⟩).1 :=
  (c1_amended ⟨true, true, true, true⟩).1 rfl rfl

/-- Claim C3, counterexample: the lower-cased "Ukrainian" is "ukrainian",
which contains no "ua" substring (the letters u and a are never adjacent),
so `shorten_name` falls through every keyword rule and returns the first two
characters upper-cased, "UK" — not "UA" as the claim states. -/
theorem c3_counterexample :
    shorten_name "Ukrainian" = "UK" ∧ shorten_name "Ukrainian" ≠ "UA" := by decide

/-- Claim C3, amended: `shorten_name` applies the keyword rules in order on
the lower-cased name — "ru"/"russian" gives "RU", else "us"/"english" gives
"EN", else "ua" gives "UA", else the first two characters upper-cased — and
"Russian", "RUSSIAN", "ru-keyboard" yield "RU", "US International" and
"english (UK)" yield "EN", "French" yields "FR", but "Ukrainian" yields "UK"
via the fallback rule, since "ukrainian" contains no "ua". -/
theorem c3_amended (name : String) :
    ((containsSub (rustLower name) "ru".data
        || containsSub (rustLower name) "russian".data) = true →
      shorten_name name = "RU") ∧
    ((containsSub (rustLower name) "ru".data
        || containsSub (rustLower name) "russian".data) = false →
      (containsSub (rustLower name) "us".data
        || containsSub (rustLower name) "english".data) = true →
      shorten_name name = "EN") ∧
    ((containsSub (rustLower name) "ru".data
        || containsSub (rustLower name) "russian".data) = false →
      (containsSub (rustLower name) "us".data
        || containsSub (rustLower name) "english".data) = false →
      containsSub (rustLower name) "ua".data = true →
      shorten_name name = "UA") ∧
    ((containsSub (rustLower name) "ru".data
        || containsSub (rustLower name) "russian".data) = false →
      (containsSub (rustLower name) "us".data
        || containsSub (rustLower name) "english".data) = false →
      containsSub (rustLower name) "ua".data = false →
      shorten_name name = String.mk ((name.data.take 2).map Char.toUpper)) ∧
    shorten_name "Russian" = "RU" ∧ shorten_name "RUSSIAN" = "RU" ∧
    shorten_name "ru-keyboard" = "RU" ∧ shorten_name "US International" = "EN" ∧
    shorten_name "english (UK)" = "EN" ∧ shorten_name "Ukrainian" = "UK" ∧
    shorten_name "French" = "FR" := by
  refine ⟨?_, ?_, ?_, ?_, ?_, ?_, ?_, ?_, ?_, ?_, ?_⟩
  · intro h1; simp [shorten_name, h1]
  · intro h1 h2; simp [shorten_name, h1, h2]
  · intro h1 h2 h3; simp [shorten_name, h1, h2, h3]
  · intro h1 h2 h3; simp [shorten_name, h1, h2, h3]
  all_goals decide

/-- Claim C3, witness for the amended theorem: the first keyword rule fires
on "Russian" and yields "RU". -/
theorem c3_witness : shorten_name "Russian" = "RU" :=
  (c3_amended "Russian").1 (by decide)

/-- Claim C5: `dock_window_to_tray` errors exactly when the tray selection
has no owner (`x11rb::NONE = 0`); the retry loop of `main` makes at most 10
attempts; when the first attempt with an owner is attempt `j` (every earlier
attempt seeing no owner), the loop docks on attempt `j` exactly, having slept
`j - 1` times (500ms between failed attempts); and when all 10 attempts see
no owner, `main` returns the distinguishable fatal error instead of running
undocked. -/
theorem c5_docking (owner : Nat) (owner_at : Nat → Nat) (j : Nat) :
    (dock_window_to_tray owner = Except.error "No system tray detected"
      ↔ owner = 0) ∧
    (dock_attempts owner_at 1 max_retries).2.1 ≤ max_retries ∧
    (1 ≤ j → j ≤ max_retries → (∀ t, 1 ≤ t → t < j → owner_at t = 0) →
      owner_at j ≠ 0 →
      dock_attempts owner_at 1 max_retries = (true, j, j - 1)) ∧
    ((∀ t, 1 ≤ t → t ≤ max_retries → owner_at t = 0) →
      run_docking owner_at =
        Except.error
          "Could not find System Tray after waiting. Is tint2/panel running?") := by
  refine ⟨?_, dock_attempts_le owner_at max_retries 1, ?_, ?_⟩
  · unfold dock_window_to_tray
    by_cases h : owner = 0
    · simp [h]
    · simp [h]
  · intro hj1 hj10 hfail hok
    rw [dock_attempts_first_success owner_at max_retries 1 j hj1
      (by unfold max_retries at hj10 ⊢; omega) (fun t ht1 ht2 => hfail t ht1 ht2) hok]
    have e : j - 1 + 1 = j := by omega
    rw [e]
  · intro hall
    unfold run_docking
    rw [dock_attempts_all_fail owner_at max_retries 1
      (fun t ht1 ht2 => hall t ht1 (by unfold max_retries at ht2 ⊢; omega))]
    rfl

/-- Claim C5, witness: with an owner appearing only on attempt 3, the loop
docks on attempt 3 having slept twice. -/
theorem c5_witness :
    dock_attempts (fun t => if t = 3 then 1 else 0) 1 max_retries = (true, 3, 2) := by
  have h := (c5_docking 0 (fun t => if t = 3 then 1 else 0) 3).2.2.1
    (by omega) (by decide)
    (fun t h1 h2 => by simp [show t ≠ 3 by omega]) (by simp)
  simpa using h

/-- Claim C6: `get_layout_names` always returns a non-empty list; the
collection loop appends the string form of each non-zero atom in order and
stops at the first zero atom (it equals mapping the name resolver over
`takeWhile (· ≠ 0)`); and when no names are collected the result is the
single synthetic default entry. -/
theorem c6_layout_names (atomName : Nat → String) (groups : Option (List Nat))
    (gs : List Nat) :
    get_layout_names atomName groups ≠ [] ∧
    collectNames atomName gs
      = (gs.takeWhile (fun a => !(a == 0))).map atomName ∧
    (collectNames atomName gs = [] →
      get_layout_names atomName (some gs) = ["US"]) := by
  refine ⟨?_, collectNames_eq_takeWhile atomName gs, ?_⟩
  · unfold get_layout_names
    cases groups with
    | none => simp
    | some gs0 =>
      cases h : collectNames atomName gs0 <;> simp [h]
  · intro h
    simp [get_layout_names, h]

/-- Claim C6, witness: a group list starting with a zero atom collects
nothing and resolves to the synthetic default entry. -/
theorem c6_witness : get_layout_names (fun _ => "x") (some [0, 5]) = ["US"] :=
  (c6_layout_names (fun _ => "x") (some [0, 5]) [0, 5]).2.2 (by decide)

/-- Claim C10: whenever the atom collection comes back empty, the resolver's
synthetic fallback entry is the string "US", and `shorten_name "US"` is "EN"
(the "us" keyword rule fires on the fallback name), so in the no-layouts case
the displayed icon label is "EN" rather than "US". -/
theorem c10_fallback_label (atomName : Nat → String) (groups : Option (List Nat))
    (h : (match groups with
          | some gs => collectNames atomName gs
          | none => []) = []) :
    get_layout_names atomName groups = ["US"] ∧
    shorten_name "US" = "EN" ∧
    (get_layout_names atomName groups).map shorten_name = ["EN"] := by
  have h1 : get_layout_names atomName groups = ["US"] := by
    unfold get_layout_names
    rw [h]
    rfl
  refine ⟨h1, by decide, ?_⟩
  rw [h1]
  decide

/-- Claim C10, witness: with the groups field absent, the resolved list is
["US"] and its displayed label list is ["EN"]. -/
theorem c10_witness :
    get_layout_names (fun _ => "x") none = ["US"] ∧
    shorten_name "US" = "EN" ∧
    (get_layout_names (fun _ => "x") none).map shorten_name = ["EN"] :=
  c10_fallback_label (fun _ => "x") none rfl

/-- Claim C2, counterexample: with the single resolved layout ["US"] and
active index 0, delivering `LayoutChanged(1)` (an index past the end of the
sequence, which the platform may report) updates the active index to 1 but
performs zero draw invocations — not "exactly one" as the claim states for
every differing index. -/
theorem c2_counterexample :
    (step ["US"] (build_icon_cache (renderPipeline fun _ => []) ["US"]) 0
      (XEvent.xkbStateNotify 1)).1 = 1 ∧
    (step ["US"] (build_icon_cache (renderPipeline fun _ => []) ["US"]) 0
      (XEvent.xkbStateNotify 1)).2.length = 0 := by decide

/-- Claim C2, amended: delivering `LayoutChanged(k)` with `k` equal to the
active index performs zero draws and leaves the state unchanged; with `k`
differing and within the bounds of the layout-name sequence it updates the
index to `k` and performs exactly one draw, of the cached buffer for layout
`k`; with `k` differing but out of bounds it updates the index to `k` and
performs zero draws. -/
theorem c2_amended (glyphWrites : String → List PixelWrite)
    (layout_names : List String) (g k : Nat) :
    (k = g →
      step layout_names (build_icon_cache (renderPipeline glyphWrites) layout_names)
        g (XEvent.xkbStateNotify k) = (g, [])) ∧
    (k ≠ g → ∀ hk : k < layout_names.length,
      step layout_names (build_icon_cache (renderPipeline glyphWrites) layout_names)
        g (XEvent.xkbStateNotify k)
        = (k, [renderPipeline glyphWrites
            (shorten_name (layout_names.get ⟨k, hk⟩))])) ∧
    (k ≠ g → layout_names.length ≤ k →
      step layout_names (build_icon_cache (renderPipeline glyphWrites) layout_names)
        g (XEvent.xkbStateNotify k) = (k, [])) := by
  refine ⟨?_, ?_, ?_⟩
  · intro h; subst h; simp [step]
  · intro hne hk
    simp only [step, if_pos hne, guardedDraw, List.get?_eq_get hk,
      lookup_build_icon_cache (renderPipeline glyphWrites) layout_names _
        (List.get_mem layout_names k hk)]
  · intro hne hge
    simp only [step, if_pos hne, guardedDraw, List.get?_eq_none.mpr hge]

/-- Claim C2, witness for the amended theorem: with layouts ["US", "ru"] and
active index 0, `LayoutChanged(1)` sets the index to 1 and draws exactly the
cached buffer for "ru". -/
theorem c2_witness :
    step ["US", "ru"] (build_icon_cache (renderPipeline fun _ => []) ["US", "ru"])
      0 (XEvent.xkbStateNotify 1)
      = (1, [renderPipeline (fun _ => []) (shorten_name "ru")]) :=
  (c2_amended (fun _ => []) ["US", "ru"] 0 1).2.1 (by decide) (by decide)

/-- Claim C4: a `LayoutChanged` event carrying a group index at or beyond the
length of the resolved layout-name sequence cannot crash — `step` is a total
function whose name lookup is the guarded `layout_names.get?` — and the
redraw is skipped: no draw invocation is performed, for any cache and any
current index. -/
theorem c4_oob_safe (layout_names : List String)
    (cache : List (String × List Nat)) (g k : Nat)
    (h : layout_names.length ≤ k) :
    (step layout_names cache g (XEvent.xkbStateNotify k)).2 = [] ∧
    (step layout_names cache g (XEvent.xkbStateNotify k)).1
      = (if k = g then g else k) := by
  by_cases hk : k = g
  · subst hk; simp [step]
  · simp only [step, if_pos hk, guardedDraw, List.get?_eq_none.mpr h]
    simp [hk]

/-- Claim C4, witness: with one resolved layout, `LayoutChanged(5)` performs
no draw. -/
theorem c4_witness :
    (step ["US"] (build_icon_cache (renderPipeline fun _ => []) ["US"]) 0
      (XEvent.xkbStateNotify 5)).2 = [] ∧
    (step ["US"] (build_icon_cache (renderPipeline fun _ => []) ["US"]) 0
      (XEvent.xkbStateNotify 5)).1 = (if 5 = 0 then 0 else 5) :=
  c4_oob_safe ["US"] (build_icon_cache (renderPipeline fun _ => []) ["US"]) 0 5
    (by decide)

/-- Claim C8: with the active index within bounds (so its buffer is cached),
an `Expose` event draws exactly when its `count` field is 0: a non-zero count
performs no draw and leaves the state unchanged, a zero count performs
exactly one draw of the active index's cached buffer, and the batch of
`Expose` events with counts [2, 1, 0] performs exactly that one draw. -/
theorem c8_expose (glyphWrites : String → List PixelWrite)
    (layout_names : List String) (g c : Nat) (hg : g < layout_names.length) :
    (c ≠ 0 →
      step layout_names (build_icon_cache (renderPipeline glyphWrites) layout_names)
        g (XEvent.expose c) = (g, [])) ∧
    (step layout_names (build_icon_cache (renderPipeline glyphWrites) layout_names)
      g (XEvent.expose 0)
      = (g, [renderPipeline glyphWrites (shorten_name (layout_names.get ⟨g, hg⟩))])) ∧
    (run_events layout_names (build_icon_cache (renderPipeline glyphWrites) layout_names)
      g [XEvent.expose 2, XEvent.expose 1, XEvent.expose 0]
      = (g, [renderPipeline glyphWrites (shorten_name (layout_names.get ⟨g, hg⟩))])) := by
  have hdraw : guardedDraw layout_names
      (build_icon_cache (renderPipeline glyphWrites) layout_names) g
      = [renderPipeline glyphWrites (shorten_name (layout_names.get ⟨g, hg⟩))] := by
    simp only [guardedDraw, List.get?_eq_get hg,
      lookup_build_icon_cache (renderPipeline glyphWrites) layout_names _
        (List.get_mem layout_names g hg)]
  refine ⟨?_, ?_, ?_⟩
  · intro hc; simp [step, hc]
  · simp [step, hdraw]
  · simp [run_events, step, hdraw]

/-- Claim C8, witness: with layouts ["US"] and active index 0, the expose
batch [2, 1, 0] produces exactly one draw, of the cached "US" buffer. -/
theorem c8_witness :
    run_events ["US"] (build_icon_cache (renderPipeline fun _ => []) ["US"]) 0
      [XEvent.expose 2, XEvent.expose 1, XEvent.expose 0]
      = (0, [renderPipeline (fun _ => []) (shorten_name "US")]) :=
  (c8_expose (fun _ => []) ["US"] 0 1 (by decide)).2.2

/-- Claim C7: for every name in the resolved layout-name sequence, the icon
cache built before the event loop contains an entry; that entry has exactly
`width*height*4 = 24*24*4 = 2304` bytes, and pixel `i` of the rendered image
is stored at bytes `4i..4i+3` as blue, green, red, then a zero byte. -/
theorem c7_icon_cache (glyphWrites : String → List PixelWrite)
    (layout_names : List String) (name : String) (h : name ∈ layout_names) :
    ∃ buf,
      mapLookup (build_icon_cache (renderPipeline glyphWrites) layout_names) name
        = some buf ∧
      buf.length = ICON_SIZE * ICON_SIZE * 4 ∧
      buf.length = 2304 ∧
      ∀ i : Nat, i < ICON_SIZE * ICON_SIZE →
        ∃ p : Rgba,
          (render_text_icon (glyphWrites (shorten_name name))).get? i = some p ∧
          buf.get? (4 * i) = some p.b ∧
          buf.get? (4 * i + 1) = some p.g ∧
          buf.get? (4 * i + 2) = some p.r ∧
          buf.get? (4 * i + 3) = some 0 := by
  refine ⟨renderPipeline glyphWrites (shorten_name name),
    lookup_build_icon_cache _ _ _ h, ?_, ?_, ?_⟩
  · unfold renderPipeline
    rw [render_icon_bgra_length, render_text_icon_length]
    ring
  · unfold renderPipeline
    rw [render_icon_bgra_length, render_text_icon_length]
    rfl
  · intro i hi
    have hlen : i < (render_text_icon (glyphWrites (shorten_name name))).length := by
      rw [render_text_icon_length]; exact hi
    have hget := List.get?_eq_get hlen
    have hb := render_icon_bgra_get _ i _ hget
    exact ⟨_, hget, hb.1, hb.2.1, hb.2.2.1, hb.2.2.2⟩

/-- Claim C7, witness: the cache built for the single layout "US" (with an
empty glyph-write list) has an entry for "US" of 2304 bytes in
blue-green-red-zero order. -/
theorem c7_witness :
    ∃ buf,
      mapLookup (build_icon_cache (renderPipeline fun _ => []) ["US"]) "US"
        = some buf ∧
      buf.length = ICON_SIZE * ICON_SIZE * 4 ∧
      buf.length = 2304 ∧
      ∀ i : Nat, i < ICON_SIZE * ICON_SIZE →
        ∃ p : Rgba,
          (render_text_icon ((fun _ => []) (shorten_name "US"))).get? i = some p ∧
          buf.get? (4 * i) = some p.b ∧
          buf.get? (4 * i + 1) = some p.g ∧
          buf.get? (4 * i + 2) = some p.r ∧
          buf.get? (4 * i + 3) = some 0 :=
  c7_icon_cache (fun _ => []) ["US"] "US" (by simp)

/-- Claim C9: on a name of at least two characters `shorten_name` returns a
string of exactly two characters none of which is a lower-case letter; on a
shorter name it returns the available characters upper-cased (which again
contain no lower-case letter). -/
theorem c9_two_upper (name : String) :
    (2 ≤ name.data.length →
      (shorten_name name).data.length = 2 ∧
      noLowercase (shorten_name name) = true) ∧
    (name.data.length < 2 →
      shorten_name name = String.mk (name.data.map Char.toUpper) ∧
      noLowercase (shorten_name name) = true) := by
  have hdef : shorten_name name =
      if containsSub (rustLower name) "ru".data
          || containsSub (rustLower name) "russian".data then "RU"
      else if containsSub (rustLower name) "us".data
          || containsSub (rustLower name) "english".data then "EN"
      else if containsSub (rustLower name) "ua".data then "UA"
      else String.mk ((name.data.take 2).map Char.toUpper) := rfl
  have hupper : ∀ l : List Char,
      noLowercase (String.mk (l.map Char.toUpper)) = true := by
    intro l
    show (l.map Char.toUpper).all (fun c => !(isAsciiLower c)) = true
    rw [List.all_map]
    refine List.all_eq_true.mpr ?_
    intro c _
    simp [Function.comp, isAsciiLower_toUpper]
  have hshort : ∀ needle : List Char, name.data.length < needle.length →
      containsSub (rustLower name) needle = false := by
    intro needle hlt
    cases hcs : containsSub (rustLower name) needle with
    | false => rfl
    | true =>
      have hle := containsSub_length _ _ hcs
      rw [rustLower, List.length_map] at hle
      omega
  constructor
  · intro hlen2
    cases h1 : (containsSub (rustLower name) "ru".data
        || containsSub (rustLower name) "russian".data) with
    | true =>
      rw [hdef, if_pos h1]
      exact ⟨rfl, by decide⟩
    | false =>
      have hn1 : ¬(containsSub (rustLower name) "ru".data
          || containsSub (rustLower name) "russian".data) = true := by simp [h1]
      cases h2 : (containsSub (rustLower name) "us".data
          || containsSub (rustLower name) "english".data) with
      | true =>
        rw [hdef, if_neg hn1, if_pos h2]
        exact ⟨rfl, by decide⟩
      | false =>
        have hn2 : ¬(containsSub (rustLower name) "us".data
            || containsSub (rustLower name) "english".data) = true := by simp [h2]
        cases h3 : containsSub (rustLower name) "ua".data with
        | true =>
          rw [hdef, if_neg hn1, if_neg hn2, if_pos h3]
          exact ⟨rfl, by decide⟩
        | false =>
          have hn3 : ¬containsSub (rustLower name) "ua".data = true := by simp [h3]
          rw [hdef, if_neg hn1, if_neg hn2, if_neg hn3]
          refine ⟨?_, hupper _⟩
          show ((name.data.take 2).map Char.toUpper).length = 2
          rw [List.length_map, List.length_take]
          omega
  · intro hlt
    have h_ru : containsSub (rustLower name) "ru".data = false :=
      hshort "ru".data hlt
    have h_russian : containsSub (rustLower name) "russian".data = false :=
      hshort "russian".data (by
        have h7 : ("russian".data).length = 7 := rfl
        omega)
    have h_us : containsSub (rustLower name) "us".data = false :=
      hshort "us".data hlt
    have h_english : containsSub (rustLower name) "english".data = false :=
      hshort "english".data (by
        have h7 : ("english".data).length = 7 := rfl
        omega)
    have h_ua : containsSub (rustLower name) "ua".data = false :=
      hshort "ua".data hlt
    rw [hdef]
    simp only [h_ru, h_russian, h_us, h_english, h_ua, Bool.or_self,
      Bool.false_eq_true, if_false]
    rw [List.take_of_length_le (by omega)]
    exact ⟨rfl, hupper _⟩

/-- Claim C9, witness: "Ukrainian" has at least two characters and its
abbreviation is two characters with no lower-case letter; "f" has fewer than
two and abbreviates to its upper-cased self. -/
theorem c9_witness :
    (shorten_name "Ukrainian").data.length = 2 ∧
    noLowercase (shorten_name "Ukrainian") = true :=
  (c9_two_upper "Ukrainian").1 (by decide)

